import Mathlib

/-!
Shallow embedding of the capability-completion core of the repository:
the `CompleteLayer` (reader, listing and writer completion in
`src/core/src/layers/complete.rs`), the Prometheus observability layer
(`src/core/src/layers/prometheus.rs`), the `Operator::remove_all` facade
dispatch (`src/core/src/types/operator/operator.rs`) and the supabase
backend `delete` (`src/core/src/services/supabase/backend.rs`).

Machine integers of the source (`u64`, `usize`) are embedded as `Nat`:
the source never subtracts without first checking the order
(`total_size - size` is guarded by `size > total_size`), and counters only
grow, so no wrap-around is reachable in the embedded fragments.
Backend calls are embedded as explicit parameters (their results) plus a
call trace where a claim counts calls.
-/

/-- Error kinds of the crate's closed error enum. -/
inductive ErrorKind
  | NotFound
  | AlreadyExists
  | NotADirectory
  | IsADirectory
  | IsSameFile
  | PermissionDenied
  | ContentTruncated
  | ContentIncomplete
  | ConditionNotMatch
  | RateLimited
  | Unsupported
  | Unexpected
deriving DecidableEq, Repr

/-- Structured error: kind, human message, optional operation tag and
key-value context pairs, mirroring `Error::new`, `with_operation` and
`with_context` as used in the embedded fragments. -/
structure Error where
  kind : ErrorKind
  message : String
  op : Option String := none
  ctx : List (String × String) := []
deriving DecidableEq, Repr

/-- Capability bits consulted by the completion layer. -/
structure Capability where
  read_can_seek : Bool
  read_can_next : Bool
  list : Bool
  list_without_delimiter : Bool
  list_with_delimiter_slash : Bool
deriving DecidableEq, Repr

/-- A backend call observable by the completion layer during one `read`
adaptation: the inner `read` (or `blocking_read`) and the inner `stat`. -/
inductive BackendCall
  | read
  | stat
deriving DecidableEq, Repr

/-- The backend's answers for one read adaptation: `reader` is an abstract
token standing for the reader value returned by the inner `read`;
`readContentLength` is `rp.metadata().content_length()` of the read
response; `statContentLength` is the `content_length` of the metadata
returned by the inner `stat`. -/
structure BackendReadModel where
  reader : Nat
  readContentLength : Nat
  statContentLength : Nat
deriving DecidableEq, Repr

/-- The four shapes of `CompleteReader` in `complete.rs`. Each carries the
abstract token of the wrapped backend reader; `NeedSeekable`/`NeedBoth`
carry the absolute (offset, size) window handed to the range-reader
adapter `oio::into_reader::by_range`; `NeedStreamable`/`NeedBoth` carry
the streamable-adapter buffer capacity (`256 * 1024` in the source). -/
inductive CompleteReaderShape
  | AlreadyComplete (r : Nat)
  | NeedSeekable (r : Nat) (offset size : Nat)
  | NeedStreamable (r : Nat) (bufSize : Nat)
  | NeedBoth (r : Nat) (offset size bufSize : Nat)
deriving DecidableEq, Repr

/-- Window handed to the range-reader adapter, when the shape has one. -/
def CompleteReaderShape.window : CompleteReaderShape → Option (Nat × Nat)
  | .NeedSeekable _ o s => some (o, s)
  | .NeedBoth _ o s _ => some (o, s)
  | _ => none

/-- Shape built in the non-seekable branch of `complete_reader`:
`NeedSeekable` when the backend reader is streamable, otherwise the
range reader is additionally wrapped by the streamable adapter. -/
def seekShape (streamable : Bool) (r offset size : Nat) : CompleteReaderShape :=
  if streamable then .NeedSeekable r offset size
  else .NeedBoth r offset size (256 * 1024)

/-- Embedding of `CompleteReaderAccessor::complete_reader`
(`complete.rs` lines 150-197). The inner `read` is issued first; in the
non-seekable suffix-range case one further inner `stat` is issued. The
returned list is the trace of backend calls in order. -/
def complete_reader (cap : Capability) (rangeOffset rangeSize : Option Nat)
    (b : BackendReadModel) : List BackendCall × CompleteReaderShape :=
  let contentLength := b.readContentLength
  match cap.read_can_seek, cap.read_can_next with
  | true, true => ([.read], .AlreadyComplete b.reader)
  | true, false => ([.read], .NeedStreamable b.reader (256 * 1024))
  | false, streamable =>
    match rangeOffset, rangeSize with
    | some offset, _ => ([.read], seekShape streamable b.reader offset contentLength)
    | none, none => ([.read], seekShape streamable b.reader 0 contentLength)
    | none, some size =>
      let totalSize := b.statContentLength
      let ws := if totalSize < size then (0, totalSize) else (totalSize - size, size)
      ([.read, .stat], seekShape streamable b.reader ws.1 ws.2)

/-- Embedding of `CompleteReaderAccessor::complete_blocking_reader`
(`complete.rs` lines 199-221). The inner `blocking_read` is always issued
first (trace `[.read]`); `readRes` is its result. With a non-seekable
capability the (successfully obtained) backend reader is dropped and an
`Unsupported` error is returned; a failure of the inner call propagates. -/
def complete_blocking_reader (cap : Capability) (readRes : Except Error Nat) :
    List BackendCall × Except Error CompleteReaderShape :=
  ([.read],
    match readRes with
    | .error e => .error e
    | .ok r =>
      match cap.read_can_seek, cap.read_can_next with
      | true, true => .ok (.AlreadyComplete r)
      | true, false => .ok (.NeedStreamable r (256 * 1024))
      | false, _ => .error ⟨.Unsupported, "non seekable blocking reader is not supported", none, []⟩)

/-- The three shapes of `CompletePager` in `complete.rs`. `NeedFlat`
records the delimiter and page limit the flat pager is built with;
`NeedHierarchy` records the anchor path handed to `to_hierarchy_pager`. -/
inductive CompletePagerShape
  | AlreadyComplete
  | NeedFlat (delimiter : String) (limit : Nat)
  | NeedHierarchy (path : String)
deriving DecidableEq, Repr

/-- Embedding of `CompleteReaderAccessor::complete_list`
(`complete.rs` lines 223-270). `innerList` gives, per delimiter the layer
passes down, the result of the inner `list` call (its pager abstracted to
`Unit`). -/
def complete_list (cap : Capability) (scheme : String) (path : String)
    (delimiter : String) (limit : Option Nat)
    (innerList : String → Except Error Unit) : Except Error CompletePagerShape :=
  if cap.list = false then
    .error ⟨.Unsupported, "operation is not supported", some "list", [("service", scheme)]⟩
  else if delimiter = "" then
    if cap.list_without_delimiter then
      match innerList "" with
      | .ok _ => .ok .AlreadyComplete
      | .error e => .error e
    else
      .ok (.NeedFlat "/" (limit.getD 1000))
  else if delimiter = "/" then
    if cap.list_with_delimiter_slash then
      match innerList "/" with
      | .ok _ => .ok .AlreadyComplete
      | .error e => .error e
    else
      match innerList "" with
      | .ok _ => .ok (.NeedHierarchy path)
      | .error e => .error e
  else
    .error ⟨.Unsupported, "list with other delimiter is not supported", none,
      [("service", scheme), ("delimiter", delimiter)]⟩

/-- Embedding of `CompleteReaderAccessor::complete_blocking_list`
(`complete.rs` lines 272-320); the body mirrors the async variant with
`blocking_list` in place of `list`. -/
def complete_blocking_list (cap : Capability) (scheme : String) (path : String)
    (delimiter : String) (limit : Option Nat)
    (innerBlockingList : String → Except Error Unit) : Except Error CompletePagerShape :=
  if cap.list = false then
    .error ⟨.Unsupported, "operation is not supported", some "list", [("service", scheme)]⟩
  else if delimiter = "" then
    if cap.list_without_delimiter then
      match innerBlockingList "" with
      | .ok _ => .ok .AlreadyComplete
      | .error e => .error e
    else
      .ok (.NeedFlat "/" (limit.getD 1000))
  else if delimiter = "/" then
    if cap.list_with_delimiter_slash then
      match innerBlockingList "/" with
      | .ok _ => .ok .AlreadyComplete
      | .error e => .error e
    else
      match innerBlockingList "" with
      | .ok _ => .ok (.NeedHierarchy path)
      | .error e => .error e
  else
    .error ⟨.Unsupported, "list with other delimiter is not supported", none,
      [("service", scheme), ("delimiter", delimiter)]⟩

/-- State of a `CompleteWriter` (`complete.rs` lines 516-530): `inner` is
the backend writer when not yet finalized (`None` after `close`/`abort`),
observed through the list of chunk lengths successfully forwarded to it;
`size` is the declared content length; `written` counts bytes forwarded. -/
structure CompleteWriter where
  inner : Option (List Nat)
  size : Option Nat
  written : Nat
deriving DecidableEq, Repr

/-- Fresh `CompleteWriter::new` over a fresh backend writer. -/
def CompleteWriter.new (size : Option Nat) : CompleteWriter :=
  ⟨some [], size, 0⟩

/-- Error built by the writer overrun check. -/
def truncatedError (size actual : Nat) : Error :=
  ⟨.ContentTruncated,
    "writer got too much data, expect: " ++ toString size ++ ", actual: " ++ toString actual,
    none, []⟩

/-- Error built by the writer underrun check at close. -/
def incompleteError (size actual : Nat) : Error :=
  ⟨.ContentIncomplete,
    "writer got too less data, expect: " ++ toString size ++ ", actual: " ++ toString actual,
    none, []⟩

/-- Error built when the sink was already finalized. -/
def closedError : Error :=
  ⟨.Unexpected, "writer has been closed or aborted", none, []⟩

/-- Forwarding step shared by both write impls: the `self.inner.as_mut()`
check followed by the inner write (embedded as always succeeding, since
bookkeeping happens only after a successful inner call) and the
`self.written += n` bump. -/
def CompleteWriter.forward (s : CompleteWriter) (n : Nat) :
    Except Error Unit × CompleteWriter :=
  match s.inner with
  | none => (.error closedError, s)
  | some w => (.ok (), ⟨some (w ++ [n]), s.size, s.written + n⟩)

/-- Embedding of `oio::Write::write` for `CompleteWriter`
(`complete.rs` lines 549-570): the overrun check against the declared
size comes first and the offending chunk is not forwarded; then the
finalization check; then forwarding and the counter bump. Returns the
call's result together with the post-state. -/
def CompleteWriter.write (s : CompleteWriter) (n : Nat) :
    Except Error Unit × CompleteWriter :=
  match s.size with
  | some size =>
    if size < s.written + n then
      (.error (truncatedError size (s.written + n)), s)
    else
      s.forward n
  | none => s.forward n

/-- Inner-close step shared by both close impls: the `as_mut` check, the
forwarded inner close, and `self.inner = None` on success. -/
def CompleteWriter.closeInner (s : CompleteWriter) (closeRes : Except Error Unit) :
    Except Error Unit × CompleteWriter :=
  match s.inner with
  | none => (.error closedError, s)
  | some _ =>
    match closeRes with
    | .error e => (.error e, s)
    | .ok _ => (.ok (), ⟨none, s.size, s.written⟩)

/-- Embedding of `oio::Write::close` for `CompleteWriter`
(`complete.rs` lines 583-604): the underrun check comes first (the state
is untouched when it fires); then the finalization check; then the inner
close, whose result `closeRes` is a parameter; on success `inner`
becomes `None`. -/
def CompleteWriter.close (s : CompleteWriter) (closeRes : Except Error Unit) :
    Except Error Unit × CompleteWriter :=
  match s.size with
  | some size =>
    if s.written < size then
      (.error (incompleteError size s.written), s)
    else
      s.closeInner closeRes
  | none => s.closeInner closeRes

/-- Embedding of `oio::BlockingWrite::write` for `CompleteWriter`
(`complete.rs` lines 611-633); the body mirrors the async variant. -/
def CompleteWriter.writeBlocking (s : CompleteWriter) (n : Nat) :
    Except Error Unit × CompleteWriter :=
  match s.size with
  | some size =>
    if size < s.written + n then
      (.error (truncatedError size (s.written + n)), s)
    else
      s.forward n
  | none => s.forward n

/-- Embedding of `oio::BlockingWrite::close` for `CompleteWriter`
(`complete.rs` lines 635-655); the body mirrors the async variant. -/
def CompleteWriter.closeBlocking (s : CompleteWriter) (closeRes : Except Error Unit) :
    Except Error Unit × CompleteWriter :=
  match s.size with
  | some size =>
    if s.written < size then
      (.error (incompleteError size s.written), s)
    else
      s.closeInner closeRes
  | none => s.closeInner closeRes

/-- Run a sequence of `write` calls, stopping at the first failure;
returns the final writer state and the error of the failing call, if any. -/
def runWrites (s : CompleteWriter) : List Nat → CompleteWriter × Option Error
  | [] => (s, none)
  | n :: rest =>
    match s.write n with
    | (.ok _, s2) => runWrites s2 rest
    | (.error e, s2) => (s2, some e)

/-- Same runner over the blocking write impl. -/
def runWritesBlocking (s : CompleteWriter) : List Nat → CompleteWriter × Option Error
  | [] => (s, none)
  | n :: rest =>
    match s.writeBlocking n with
    | (.ok _, s2) => runWritesBlocking s2 rest
    | (.error e, s2) => (s2, some e)

/-- Operations of the accessor contract, as wrapped by
`PrometheusAccessor` (`prometheus.rs` lines 189-562). -/
inductive Operation
  | CreateDir
  | Read
  | Write
  | Append
  | Stat
  | Delete
  | List
  | Batch
  | Presign
  | BlockingCreateDir
  | BlockingRead
  | BlockingWrite
  | BlockingStat
  | BlockingDelete
  | BlockingList
deriving DecidableEq, Repr

/-- Label values each `PrometheusAccessor` method passes to
`requests_total.with_label_values` at its single increment, read off the
source method by method. The first label is always the scheme; the value
recorded here is the `Operation` whose `into_static()` name is passed as
the second label, `some none` when the method passes only the scheme
label (that is what `create_dir` does, lines 204-208), and `none` when
the method performs no `requests_total` increment at all (`append`,
lines 302-304, forwards without touching the metrics). `delete`
(lines 331-335) passes `Operation::Stat.into_static()`. -/
def requestsTotalIncrement : Operation → Option (Option Operation)
  | .CreateDir => some none
  | .Read => some (some .Read)
  | .Write => some (some .Write)
  | .Append => none
  | .Stat => some (some .Stat)
  | .Delete => some (some .Stat)
  | .List => some (some .List)
  | .Batch => some (some .Batch)
  | .Presign => some (some .Presign)
  | .BlockingCreateDir => some (some .BlockingCreateDir)
  | .BlockingRead => some (some .BlockingRead)
  | .BlockingWrite => some (some .BlockingWrite)
  | .BlockingStat => some (some .BlockingStat)
  | .BlockingDelete => some (some .BlockingDelete)
  | .BlockingList => some (some .BlockingList)

/-- Entry modes of the data model. -/
inductive EntryMode
  | FILE
  | DIR
  | Unknown
deriving DecidableEq, Repr

/-- Embedding of the dispatch of `Operator::remove_all`
(`operator.rs` lines 1143-1190): the result of the initial `stat` is
`statRes` (abstracted to the entry mode of its metadata); a `NotFound`
failure of that stat returns success, any other failure propagates. The
continuations are parameters: `deletePath` is `self.delete(path)` and
`removeChildren` is the scan-and-delete (or batch) pass over a
directory's contents; after a successful children pass the directory
itself is deleted. -/
def remove_all (statRes : Except Error EntryMode)
    (deletePath : Except Error Unit) (removeChildren : Except Error Unit) :
    Except Error Unit :=
  match statRes with
  | .error e => if e.kind = .NotFound then .ok () else .error e
  | .ok mode =>
    if mode ≠ .DIR then
      deletePath
    else
      match removeChildren with
      | .error e => .error e
      | .ok _ =>
        match deletePath with
        | .error e => .error e
        | .ok _ => .ok ()

/-- Embedding of `SupabaseBackend::delete`
(`backend.rs` lines 315-330): `reqRes` is the result of
`supabase_delete_object` (abstracted to whether the response status is a
success); on a non-success status `parseRes` is the result of
`parse_error(resp)` (which itself may fail, propagating); a parsed
`NotFound` error is mapped to success, any other parsed error returned. -/
def supabase_delete (reqRes : Except Error Bool) (parseRes : Except Error Error) :
    Except Error Unit :=
  match reqRes with
  | .error e => .error e
  | .ok true => .ok ()
  | .ok false =>
    match parseRes with
    | .error e => .error e
    | .ok e => if e.kind = .NotFound then .ok () else .error e

lemma seekShape_window (st : Bool) (r o sz : Nat) :
    (seekShape st r o sz).window = some (o, sz) := by
  cases st <;> rfl

lemma CompleteWriter.writeBlocking_eq (s : CompleteWriter) (n : Nat) :
    s.writeBlocking n = s.write n := by
  cases h : s.size <;>
    simp [CompleteWriter.write, CompleteWriter.writeBlocking, h]

lemma CompleteWriter.closeBlocking_eq (s : CompleteWriter) (closeRes : Except Error Unit) :
    s.closeBlocking closeRes = s.close closeRes := by
  cases h : s.size <;>
    simp [CompleteWriter.close, CompleteWriter.closeBlocking, h]

lemma runWritesBlocking_eq : ∀ (ls : List Nat) (s : CompleteWriter),
    runWritesBlocking s ls = runWrites s ls := by
  intro ls
  induction ls with
  | nil => intro s; rfl
  | cons n rest ih =>
    intro s
    simp only [runWritesBlocking, runWrites, CompleteWriter.writeBlocking_eq]
    rcases h : s.write n with ⟨r, s2⟩
    cases r <;> simp [ih]

lemma runWrites_ok : ∀ (ls : List Nat) (S written : Nat) (w : List Nat),
    written + ls.sum ≤ S →
    runWrites ⟨some w, some S, written⟩ ls =
      (⟨some (w ++ ls), some S, written + ls.sum⟩, none) := by
  intro ls
  induction ls with
  | nil => intro S written w h; simp [runWrites]
  | cons n rest ih =>
    intro S written w h
    simp only [List.sum_cons] at h
    have hn : ¬ S < written + n := by omega
    simp only [runWrites, CompleteWriter.write, CompleteWriter.forward, hn, if_false]
    rw [ih S (written + n) (w ++ [n]) (by omega)]
    simp
    omega

lemma runWrites_overrun : ∀ (pre : List Nat) (S written l : Nat) (rest w : List Nat),
    written + pre.sum ≤ S → S < written + pre.sum + l →
    runWrites ⟨some w, some S, written⟩ (pre ++ l :: rest) =
      (⟨some (w ++ pre), some S, written + pre.sum⟩,
        some (truncatedError S (written + pre.sum + l))) := by
  intro pre
  induction pre with
  | nil =>
    intro S written l rest w h1 h2
    simp only [List.sum_nil, Nat.add_zero] at h1 h2
    simp only [List.nil_append, runWrites, CompleteWriter.write, h2, if_true]
    simp
  | cons p ps ih =>
    intro S written l rest w h1 h2
    simp only [List.sum_cons] at h1 h2
    have hp : ¬ S < written + p := by omega
    simp only [List.cons_append, runWrites, CompleteWriter.write, CompleteWriter.forward,
      hp, if_false]
    simp only [List.append_eq]
    rw [ih S (written + p) l rest (w ++ [p]) (by omega) (by omega)]
    have e1 : (w ++ [p]) ++ ps = w ++ p :: ps := by simp
    have e2 : written + p + ps.sum = written + (p + ps.sum) := by omega
    rw [e1, e2]
    simp [List.sum_cons]

/-- C1: for a `CompleteWriter` with declared content length `S` and a
sequence of `write` calls with lengths `l1..lk` followed by `close`, a
write fails with `ContentTruncated` exactly at the first prefix whose
partial sum exceeds `S` and the failing chunk is not forwarded to the
backend writer; `close` fails with `ContentIncomplete` iff the sum of
successfully written lengths is strictly below `S`; when the sum equals
`S` and the backend close succeeds, `close` succeeds. The blocking writer
behaves identically to the async one. -/
theorem writer_size_law (S : Nat) :
    (∀ (pre : List Nat) (l : Nat) (rest : List Nat), pre.sum ≤ S → S < pre.sum + l →
      runWrites (CompleteWriter.new (some S)) (pre ++ l :: rest) =
        (⟨some pre, some S, pre.sum⟩, some (truncatedError S (pre.sum + l))))
  ∧ (∀ ls : List Nat, ls.sum ≤ S →
      runWrites (CompleteWriter.new (some S)) ls = (⟨some ls, some S, ls.sum⟩, none))
  ∧ (∀ (w : List Nat) (written : Nat) (closeRes : Except Error Unit), written < S →
      CompleteWriter.close ⟨some w, some S, written⟩ closeRes =
        (.error (incompleteError S written), ⟨some w, some S, written⟩))
  ∧ (∀ w : List Nat,
      CompleteWriter.close ⟨some w, some S, S⟩ (.ok ()) = (.ok (), ⟨none, some S, S⟩))
  ∧ (∀ (s : CompleteWriter) (ls : List Nat), runWritesBlocking s ls = runWrites s ls)
  ∧ (∀ (s : CompleteWriter) (r : Except Error Unit), s.closeBlocking r = s.close r) := by
  refine ⟨?_, ?_, ?_, ?_, ?_, ?_⟩
  · intro pre l rest h1 h2
    have h := runWrites_overrun pre S 0 l rest [] (by omega) (by omega)
    simpa [CompleteWriter.new] using h
  · intro ls h
    have h2 := runWrites_ok ls S 0 [] (by omega)
    simpa [CompleteWriter.new] using h2
  · intro w written closeRes h
    simp [CompleteWriter.close, h]
  · intro w
    simp [CompleteWriter.close, CompleteWriter.closeInner]
  · intro s ls
    exact runWritesBlocking_eq ls s
  · intro s r
    exact s.closeBlocking_eq r

theorem writer_size_law_witness :
    runWrites (CompleteWriter.new (some 4)) [5] =
      (⟨some [], some 4, 0⟩, some (truncatedError 4 5)) := by
  have h := (writer_size_law 4).1 [] 5 [] (by decide) (by decide)
  simpa using h

/-- C9: when `close` fails with `ContentIncomplete` (written < declared
size), the writer state is unchanged — the counter keeps its value and
the inner sink is retained, whatever the backend close would have
answered — and a subsequent write of the missing bytes followed by a
close succeeds instead of being rejected with `Unexpected`. The blocking
close behaves the same. -/
theorem close_incomplete_preserves_state (S written : Nat) (w : List Nat)
    (h : written < S) :
    (∀ closeRes, CompleteWriter.close ⟨some w, some S, written⟩ closeRes =
        (.error (incompleteError S written), ⟨some w, some S, written⟩))
  ∧ (∀ closeRes, CompleteWriter.closeBlocking ⟨some w, some S, written⟩ closeRes =
        (.error (incompleteError S written), ⟨some w, some S, written⟩))
  ∧ CompleteWriter.write ⟨some w, some S, written⟩ (S - written) =
      (.ok (), ⟨some (w ++ [S - written]), some S, S⟩)
  ∧ CompleteWriter.close ⟨some (w ++ [S - written]), some S, S⟩ (.ok ()) =
      (.ok (), ⟨none, some S, S⟩) := by
  refine ⟨?_, ?_, ?_, ?_⟩
  · intro closeRes
    simp [CompleteWriter.close, h]
  · intro closeRes
    simp [CompleteWriter.closeBlocking, h]
  · have hn : ¬ S < written + (S - written) := by omega
    simp [CompleteWriter.write, CompleteWriter.forward, hn]
    omega
  · simp [CompleteWriter.close, CompleteWriter.closeInner]

theorem close_incomplete_preserves_state_witness :
    CompleteWriter.close ⟨some [5], some 10, 5⟩ (.ok ()) =
      (.error (incompleteError 10 5), ⟨some [5], some 10, 5⟩) :=
  (close_incomplete_preserves_state 10 5 [5] (by decide)).1 (.ok ())

/-- C2: when the backend capability reports both `read_can_seek` and
`read_can_next`, the completion layer issues exactly one backend `read`
and zero backend `stat` calls for any requested range, and returns the
backend's reader unchanged in the `AlreadyComplete` variant. -/
theorem zero_cost_passthrough (cap : Capability) (ro rs : Option Nat)
    (b : BackendReadModel) (hs : cap.read_can_seek = true)
    (hn : cap.read_can_next = true) :
    complete_reader cap ro rs b = ([.read], .AlreadyComplete b.reader)
  ∧ (complete_reader cap ro rs b).1.count .read = 1
  ∧ (complete_reader cap ro rs b).1.count .stat = 0 := by
  have h : complete_reader cap ro rs b = ([.read], .AlreadyComplete b.reader) := by
    obtain ⟨cs, cn, l1, l2, l3⟩ := cap
    cases cs
    · simp at hs
    · cases cn
      · simp at hn
      · simp [complete_reader]
  refine ⟨h, ?_, ?_⟩ <;> simp [h, List.count_cons]

theorem zero_cost_passthrough_witness :
    complete_reader ⟨true, true, true, true, true⟩ (some 1) (some 2) ⟨7, 5, 100⟩ =
      ([.read], .AlreadyComplete 7) :=
  (zero_cost_passthrough ⟨true, true, true, true, true⟩ (some 1) (some 2)
    ⟨7, 5, 100⟩ rfl rfl).1

/-- C3: for a non-seekable backend and a suffix range `(None, Some s)`,
the layer issues the backend `read` and then one backend `stat` to learn
the total size `T`, and hands the range-reader adapter the absolute
window `(T - s, min s T)` (truncated subtraction, so `(0, T)` when
`s > T` and `(T - s, s)` when `s ≤ T`). -/
theorem suffix_range_resolution (cap : Capability) (s : Nat) (b : BackendReadModel)
    (hs : cap.read_can_seek = false) :
    complete_reader cap none (some s) b =
      ([.read, .stat],
        seekShape cap.read_can_next b.reader (b.statContentLength - s)
          (min s b.statContentLength))
  ∧ (complete_reader cap none (some s) b).2.window =
      some (b.statContentLength - s, min s b.statContentLength) := by
  have h : complete_reader cap none (some s) b =
      ([.read, .stat],
        seekShape cap.read_can_next b.reader (b.statContentLength - s)
          (min s b.statContentLength)) := by
    obtain ⟨cs, cn, l1, l2, l3⟩ := cap
    cases cs
    · by_cases hts : b.statContentLength < s
      · have e1 : b.statContentLength - s = 0 := by omega
        have e2 : min s b.statContentLength = b.statContentLength := by omega
        simp [complete_reader, hts, e1, e2]
      · have e2 : min s b.statContentLength = s := by omega
        simp [complete_reader, hts, e2]
    · simp at hs
  refine ⟨h, ?_⟩
  rw [h]
  exact seekShape_window _ _ _ _

theorem suffix_range_resolution_witness :
    complete_reader ⟨false, true, true, true, true⟩ none (some 30) ⟨7, 30, 100⟩ =
      ([.read, .stat], .NeedSeekable 7 70 30) := by
  have h := (suffix_range_resolution ⟨false, true, true, true, true⟩ 30
    ⟨7, 30, 100⟩ rfl).1
  simpa [seekShape] using h

/-- C4 counterexample: with a non-seekable backend and requested range
`(Some 3, Some 5)`, if the backend read response reports content length 2,
the window handed to the range-reader adapter is `(3, 2)`, not the
requested `(3, 5)`: the size component is not used directly from the
request. -/
theorem explicit_range_window_counterexample :
    ¬ ((complete_reader ⟨false, true, true, true, true⟩ (some 3) (some 5)
        ⟨7, 2, 100⟩).2.window = some (3, 5)) := by
  decide

/-- C4 (amended): for a non-seekable backend and a request `(Some o, _)`,
the window handed to the range-reader adapter is `(o, L)` where `L` is
the `content_length` reported by the backend read response; it equals the
requested `(o, s)` exactly when the response reports length `s`. -/
theorem explicit_range_uses_response_length (cap : Capability) (o s : Nat)
    (b : BackendReadModel) (hs : cap.read_can_seek = false) :
    complete_reader cap (some o) (some s) b =
      ([.read], seekShape cap.read_can_next b.reader o b.readContentLength)
  ∧ (b.readContentLength = s →
      (complete_reader cap (some o) (some s) b).2.window = some (o, s)) := by
  have h : complete_reader cap (some o) (some s) b =
      ([.read], seekShape cap.read_can_next b.reader o b.readContentLength) := by
    obtain ⟨cs, cn, l1, l2, l3⟩ := cap
    cases cs
    · simp [complete_reader]
    · simp at hs
  refine ⟨h, ?_⟩
  intro hl
  rw [h]
  simp [seekShape_window, hl]

theorem explicit_range_uses_response_length_witness :
    complete_reader ⟨false, true, true, true, true⟩ (some 3) (some 5) ⟨7, 5, 100⟩ =
      ([.read], .NeedSeekable 7 3 5) := by
  have h := (explicit_range_uses_response_length ⟨false, true, true, true, true⟩
    3 5 ⟨7, 5, 100⟩ rfl).1
  simpa [seekShape] using h

/-- C6: a blocking read through the completion layer on a backend whose
capability reports `read_can_seek = false` returns, once the inner
`blocking_read` has succeeded, an `Unsupported` error with message
"non seekable blocking reader is not supported" whatever `read_can_next`
says; and the only reader shapes the blocking variant can ever return
are `AlreadyComplete` and `NeedStreamable`. -/
theorem blocking_nonseekable_unsupported (cap : Capability) (r : Nat)
    (hs : cap.read_can_seek = false) :
    (complete_blocking_reader cap (.ok r)).2 =
      .error ⟨.Unsupported, "non seekable blocking reader is not supported", none, []⟩
  ∧ (∀ (cap2 : Capability) (res : Except Error Nat) (shape : CompleteReaderShape),
      (complete_blocking_reader cap2 res).2 = .ok shape →
      (∃ x, shape = .AlreadyComplete x) ∨ (∃ x n, shape = .NeedStreamable x n)) := by
  constructor
  · obtain ⟨cs, cn, l1, l2, l3⟩ := cap
    cases cs
    · simp [complete_blocking_reader]
    · simp at hs
  · intro cap2 res shape hok
    obtain ⟨cs, cn, l1, l2, l3⟩ := cap2
    cases res with
    | error e => simp [complete_blocking_reader] at hok
    | ok r2 =>
      cases cs <;> cases cn <;> simp [complete_blocking_reader] at hok
      · exact Or.inr ⟨r2, 256 * 1024, hok.symm⟩
      · exact Or.inl ⟨r2, hok.symm⟩

theorem blocking_nonseekable_unsupported_witness :
    (complete_blocking_reader ⟨false, true, true, true, true⟩ (.ok 7)).2 =
      .error ⟨.Unsupported, "non seekable blocking reader is not supported", none, []⟩ :=
  (blocking_nonseekable_unsupported ⟨false, true, true, true, true⟩ 7 rfl).1

/-- C10: when the completion layer rejects a blocking read on a
non-seekable backend, it has already issued the one inner `blocking_read`
call (the trace is `[.read]` whatever the inner call answers) and the
returned reader is dropped; if the inner call itself fails, its error is
propagated instead of `Unsupported`. -/
theorem blocking_nonseekable_probes_backend (cap : Capability)
    (res : Except Error Nat) (hs : cap.read_can_seek = false) :
    (complete_blocking_reader cap res).1 = [.read]
  ∧ (∀ e, res = .error e → (complete_blocking_reader cap res).2 = .error e)
  ∧ (∀ r, res = .ok r → (complete_blocking_reader cap res).2 =
      .error ⟨.Unsupported, "non seekable blocking reader is not supported", none, []⟩) := by
  refine ⟨rfl, ?_, ?_⟩
  · intro e he
    subst he
    rfl
  · intro r hr
    subst hr
    obtain ⟨cs, cn, l1, l2, l3⟩ := cap
    cases cs
    · simp [complete_blocking_reader]
    · simp at hs

theorem blocking_nonseekable_probes_backend_witness :
    (complete_blocking_reader ⟨false, false, true, true, true⟩
        (.error ⟨.NotFound, "not found", none, []⟩)).1 = [.read]
  ∧ (complete_blocking_reader ⟨false, false, true, true, true⟩
        (.error ⟨.NotFound, "not found", none, []⟩)).2 =
      .error ⟨.NotFound, "not found", none, []⟩ := by
  have h := blocking_nonseekable_probes_backend ⟨false, false, true, true, true⟩
    (.error ⟨.NotFound, "not found", none, []⟩) rfl
  exact ⟨h.1, h.2.1 _ rfl⟩

/-- C7: a `list` or `blocking_list` through the completion layer on a
backend with the `list` capability fails with `Unsupported` (message
"list with other delimiter is not supported", context naming the service
and the offending delimiter) whenever the requested delimiter is neither
the empty string nor "/"; no pager is returned. -/
theorem list_delimiter_rejected (cap : Capability) (scheme path delim : String)
    (limit : Option Nat) (f g : String → Except Error Unit)
    (hl : cap.list = true) (h1 : delim ≠ "") (h2 : delim ≠ "/") :
    complete_list cap scheme path delim limit f =
      .error ⟨.Unsupported, "list with other delimiter is not supported", none,
        [("service", scheme), ("delimiter", delim)]⟩
  ∧ complete_blocking_list cap scheme path delim limit g =
      .error ⟨.Unsupported, "list with other delimiter is not supported", none,
        [("service", scheme), ("delimiter", delim)]⟩ := by
  constructor <;> simp [complete_list, complete_blocking_list, hl, h1, h2]

theorem list_delimiter_rejected_witness :
    complete_list ⟨true, true, true, true, true⟩ "s3" "dir/" "|" none
        (fun _ => .ok ()) =
      .error ⟨.Unsupported, "list with other delimiter is not supported", none,
        [("service", "s3"), ("delimiter", "|")]⟩ :=
  (list_delimiter_rejected ⟨true, true, true, true, true⟩ "s3" "dir/" "|" none
    (fun _ => .ok ()) (fun _ => .ok ()) rfl (by decide) (by decide)).1

/-- C5: the Prometheus layer does not label every `requests_total`
increment with the wrapped operation's own name: `delete` increments it
with the `stat` operation label, `create_dir` passes only the scheme
label (no operation label at all), and `append` performs no increment,
contradicting the per-(scheme, operation) counting the layer is
documented to do. -/
theorem prometheus_requests_total_mislabeled :
    requestsTotalIncrement .Delete = some (some .Stat)
  ∧ requestsTotalIncrement .CreateDir = some none
  ∧ requestsTotalIncrement .Append = none
  ∧ requestsTotalIncrement .Delete ≠ some (some .Delete)
  ∧ requestsTotalIncrement .CreateDir ≠ some (some .CreateDir) := by
  decide

/-- C8: deleting a nonexistent object is success: `Operator::remove_all`
returns `Ok(())` when the initial stat fails with kind `NotFound`, and
the supabase backend `delete` returns `Ok` when the non-success service
response parses to a `NotFound` error. -/
theorem delete_nonexistent_is_success (e parsed : Error)
    (deletePath removeChildren : Except Error Unit)
    (he : e.kind = .NotFound) (hp : parsed.kind = .NotFound) :
    remove_all (.error e) deletePath removeChildren = .ok ()
  ∧ supabase_delete (.ok false) (.ok parsed) = .ok () := by
  constructor <;> simp [remove_all, supabase_delete, he, hp]

theorem delete_nonexistent_is_success_witness :
    remove_all (.error ⟨.NotFound, "not found", none, []⟩) (.ok ()) (.ok ()) = .ok ()
  ∧ supabase_delete (.ok false) (.ok ⟨.NotFound, "not found", none, []⟩) = .ok () :=
  delete_nonexistent_is_success ⟨.NotFound, "not found", none, []⟩
    ⟨.NotFound, "not found", none, []⟩ (.ok ()) (.ok ()) rfl rfl
